import Mathlib

/-!
Shallow embedding of the enttok-e backend job-lifecycle engine and connector
synchronization services, together with theorems settling specification
claims C1-C10.  Every definition mirrors the Python function of the same
name in `src/backend/app`; timestamps are modelled as natural numbers
(seconds since epoch), SQL tables as association lists keyed by their
primary key, and exceptions as `Except` values.
-/

namespace Enttok

/-- Select the first row of a keyed table matching a primary key (the
embedding of `select ... where key = ?`). -/
def lookupKey {β : Type} : List (String × β) → String → Option β
  | [], _ => none
  | kv :: rest, k => if kv.1 == k then some kv.2 else lookupKey rest k

/-- Rewrite every row of a keyed table matching a primary key (the
embedding of `update ... where key = ?`). -/
def updateKey {β : Type} (l : List (String × β)) (k : String) (f : β → β) : List (String × β) :=
  l.map (fun kv => if kv.1 == k then (kv.1, f kv.2) else kv)

/-- Looking a key up after updating that same key yields the updated row. -/
theorem lookupKey_updateKey_self {β : Type} (l : List (String × β)) (k : String) (f : β → β) :
    lookupKey (updateKey l k f) k = (lookupKey l k).map f := by
  induction l with
  | nil => rfl
  | cons hd tl ih =>
    simp only [updateKey, List.map_cons] at ih ⊢
    by_cases h : (hd.1 == k) = true
    · rw [if_pos h]
      simp only [lookupKey, if_pos h, Option.map_some']
    · rw [if_neg h]
      simp only [lookupKey, if_neg h, ih]

/-- Updating one key leaves every other key's lookup unchanged. -/
theorem lookupKey_updateKey_other {β : Type} (l : List (String × β)) (k k' : String)
    (f : β → β) (hne : k' ≠ k) :
    lookupKey (updateKey l k f) k' = lookupKey l k' := by
  induction l with
  | nil => rfl
  | cons hd tl ih =>
    simp only [updateKey, List.map_cons] at ih ⊢
    by_cases h : (hd.1 == k) = true
    · have hk : hd.1 = k := by simpa using h
      have h2 : (hd.1 == k') = false := by
        simp only [hk, beq_eq_false_iff_ne, ne_eq]
        exact fun hkk => hne hkk.symm
      rw [if_pos h]
      simp only [lookupKey]
      rw [show ((hd.1, f hd.2).1 == k') = false from h2]
      simp only [Bool.false_eq_true, if_false]
      exact ih
    · rw [if_neg h]
      simp only [lookupKey]
      rw [ih]

/-- Job status strings persisted by `db/jobs_repo.py` and produced by the
workers in `services/jobs.py`. -/
inductive Status
  | queued
  | running
  | succeeded
  | failed
  | canceled
deriving DecidableEq, Repr

/-- A status is terminal when the lifecycle state machine has ended. -/
def Status.isTerminal : Status → Bool
  | .succeeded => true
  | .failed => true
  | .canceled => true
  | _ => false

/-- One row of the `jobs` table (the fields relevant to the cancel endpoint
and the workers; `payload_json` is carried by the caller separately). -/
structure Job where
  type : String
  status : Status
  progress : Option ℚ
  message : Option String
  result : Option String
  error : Option String
  updated_at : Nat
deriving DecidableEq, Repr

/-- Websocket payloads emitted through `manager.broadcast` by the job code
paths (shape `{type, job_id, status}` resp. `{type, job_id, progress}`). -/
inductive Payload
  | jobStatus (job_id : String) (status : Status)
  | jobProgress (job_id : String) (progress : ℚ)
  | log (message : String)
  | activitySync (source : String) (account_id : String) (synced_events : Nat)
deriving DecidableEq, Repr

/-- The job store plus the two append-only side channels the job code
writes: the `job_events` audit table (`record_event`) and the stream of
broadcast payloads. -/
structure JobsDb where
  jobs : List (String × Job)
  events : List (String × String × String)
  broadcasts : List Payload
deriving DecidableEq, Repr

/-- `jobs_repo.fetch_job`: select the row keyed by `job_id`. -/
def fetch_job (db : JobsDb) (job_id : String) : Option Job :=
  lookupKey db.jobs job_id

/-- The keyword-argument updates accepted by `jobs_repo.update_job`; the
outer `Option` records whether the field occurs in `**fields`, and for
`result`/`error` the inner `Option` is the nullable stored value. -/
structure JobUpdate where
  status : Option Status := none
  progress : Option ℚ := none
  message : Option String := none
  result : Option (Option String) := none
  error : Option (Option String) := none
deriving DecidableEq, Repr

/-- Apply a `JobUpdate` to one row; `updated_at` is always refreshed to the
write time, exactly as `jobs_repo.update_job` does. -/
def applyUpdate (u : JobUpdate) (now : Nat) (j : Job) : Job :=
  { type := j.type
    status := u.status.getD j.status
    progress := match u.progress with | some p => some p | none => j.progress
    message := match u.message with | some m => some m | none => j.message
    result := u.result.getD j.result
    error := u.error.getD j.error
    updated_at := now }

/-- `jobs_repo.update_job`: SQL `update jobs set ... where job_id = ?`,
with no guard of any kind on the current status. -/
def update_job (db : JobsDb) (job_id : String) (u : JobUpdate) (now : Nat) : JobsDb :=
  { db with jobs := updateKey db.jobs job_id (applyUpdate u now) }

/-- `jobs_repo.record_event`: append-only insert into `job_events`. -/
def record_event (db : JobsDb) (job_id level message : String) : JobsDb :=
  { db with events := db.events ++ [(job_id, level, message)] }

/-- Emission of a `{type: job.status}` payload on the broadcast stream. -/
def broadcast_status (db : JobsDb) (job_id : String) (s : Status) : JobsDb :=
  { db with broadcasts := db.broadcasts ++ [Payload.jobStatus job_id s] }

/-- Response of the cancel endpoint (`404` collapsed to `notFound`). -/
inductive CancelResult
  | notFound
  | ok (job_id : String) (status : Status)
deriving DecidableEq, Repr

/-- `api/jobs.py::cancel_job`: fetch the job; if its status is `succeeded`
or `failed` return it unchanged; otherwise (queued, running, or already
canceled) write status `canceled`, record a diagnostic event, and
broadcast a status payload. -/
def cancel_job (db : JobsDb) (job_id : String) (now : Nat) : CancelResult × JobsDb :=
  match fetch_job db job_id with
  | none => (CancelResult.notFound, db)
  | some job =>
    if job.status = Status.succeeded ∨ job.status = Status.failed then
      (CancelResult.ok job_id job.status, db)
    else
      let db1 := update_job db job_id { status := some Status.canceled } now
      let db2 := record_event db1 job_id "info" "job canceled"
      let db3 := broadcast_status db2 job_id Status.canceled
      (CancelResult.ok job_id Status.canceled, db3)

/-- The literal reading of claim C1: cancel is a pure no-op (same result,
same store, no event, no broadcast) on every terminal status. -/
def cancelTerminalNoOp : Prop :=
  ∀ (db : JobsDb) (job_id : String) (now : Nat) (job : Job),
    fetch_job db job_id = some job → job.status.isTerminal = true →
    cancel_job db job_id now = (CancelResult.ok job_id job.status, db)

/-- A store holding a single already-canceled job. -/
def sampleCanceledJob : Job :=
  { type := "noop", status := Status.canceled, progress := none, message := none,
    result := none, error := none, updated_at := 0 }

/-- Store used as the concrete counterexample input for claim C1. -/
def sampleDb : JobsDb :=
  { jobs := [("j1", sampleCanceledJob)], events := [], broadcasts := [] }

/-- Fetching a job after `update_job` on the same key returns the updated
row. -/
theorem fetch_job_update_self (db : JobsDb) (k : String) (u : JobUpdate) (now : Nat) :
    fetch_job (update_job db k u now) k = (fetch_job db k).map (applyUpdate u now) := by
  simp only [fetch_job, update_job]
  exact lookupKey_updateKey_self db.jobs k (applyUpdate u now)

/-- C1 — counterexample: on the job store holding one already-`canceled`
job, `cancel_job` is not a no-op: it re-writes the status, appends a
diagnostic event, and broadcasts again, so the claim that cancel performs
no mutation on every terminal status is false (the code only treats
`succeeded` and `failed` this way). -/
theorem C1_counterexample : ¬ cancelTerminalNoOp := by
  intro h
  have hc := h sampleDb "j1" 5 sampleCanceledJob (by decide) (by decide)
  have : (cancel_job sampleDb "j1" 5).2.events = [("j1", "info", "job canceled")] := by decide
  rw [hc] at this
  exact absurd this (by decide)

/-- C1 (amended): `cancel_job` is an idempotent no-op exactly on the
statuses `succeeded` and `failed`; on any other current status — queued,
running, or already canceled — it returns `canceled`, writes status
`canceled` onto the row, records one diagnostic event, and broadcasts one
status payload. -/
theorem C1_cancel_terminal_amended (db : JobsDb) (job_id : String) (now : Nat) (job : Job)
    (hfetch : fetch_job db job_id = some job) :
    ((job.status = Status.succeeded ∨ job.status = Status.failed) →
      cancel_job db job_id now = (CancelResult.ok job_id job.status, db)) ∧
    (job.status ≠ Status.succeeded → job.status ≠ Status.failed →
      (cancel_job db job_id now).1 = CancelResult.ok job_id Status.canceled ∧
      (cancel_job db job_id now).2.events = db.events ++ [(job_id, "info", "job canceled")] ∧
      (cancel_job db job_id now).2.broadcasts
        = db.broadcasts ++ [Payload.jobStatus job_id Status.canceled] ∧
      fetch_job (cancel_job db job_id now).2 job_id
        = some (applyUpdate { status := some Status.canceled } now job)) := by
  constructor
  · intro hterm
    simp [cancel_job, hfetch, hterm]
  · intro h1 h2
    have hcond : ¬ (job.status = Status.succeeded ∨ job.status = Status.failed) := by
      rintro (h | h) <;> [exact h1 h; exact h2 h]
    simp only [cancel_job, hfetch, hcond, if_neg hcond]
    refine ⟨rfl, ?_, ?_, ?_⟩
    · simp [record_event, broadcast_status, update_job]
    · simp [record_event, broadcast_status, update_job]
    · show fetch_job (broadcast_status (record_event
        (update_job db job_id { status := some Status.canceled } now) job_id "info" "job canceled")
        job_id Status.canceled) job_id = _
      have : fetch_job (broadcast_status (record_event
          (update_job db job_id { status := some Status.canceled } now) job_id "info" "job canceled")
          job_id Status.canceled) job_id
          = fetch_job (update_job db job_id { status := some Status.canceled } now) job_id := by
        simp [fetch_job, record_event, broadcast_status]
      rw [this, fetch_job_update_self, hfetch]
      rfl

/-- Witness for the amended C1 theorem at a concrete store. -/
theorem C1_cancel_terminal_amended_witness :
    (cancel_job sampleDb "j1" 5).1 = CancelResult.ok "j1" Status.canceled ∧
    (cancel_job sampleDb "j1" 5).2.events = [("j1", "info", "job canceled")] := by
  have h := C1_cancel_terminal_amended sampleDb "j1" 5 sampleCanceledJob (by decide)
  have h2 := h.2 (by decide) (by decide)
  exact ⟨h2.1, h2.2.1⟩

/-- Where the single worker owning a job id stands: the id is still
waiting in the queue (`pending`); `process_job` has dispatched the
handler, which is executing and has not yet written a terminal status
(`dispatched`); the handler has written `succeeded` but its follow-up
`record_event`/`broadcast` calls are still inside the same `try`
(`wrapping`); or the handler has returned or its `except` clause has
completed (`finished`). -/
inductive Phase
  | pending
  | dispatched
  | wrapping
  | finished
deriving DecidableEq, Repr

/-- The lifecycle-relevant persisted fields of one job record together
with the owning worker's dispatch phase. -/
structure JobConf where
  status : Status
  phase : Phase
  result : Option String
  error : Option String
deriving DecidableEq, Repr

/-- Configuration of a freshly submitted job (`jobs_repo.create_job`
inserts status `queued` with `result_json` and `error_json` null). -/
def jobInit : JobConf :=
  { status := Status.queued, phase := Phase.pending, result := none, error := none }

/-- The writes the code can perform on one job record, each with exactly
the guard present in the source; the interleaving of the cancel endpoint
with the owning worker is modelled by allowing `cancel` at any phase.

* `cancel` — `api/jobs.py::cancel_job`: allowed whenever the current
  status is neither `succeeded` nor `failed`; writes `canceled`.
* `dispatch` — `services/jobs.py::worker_loop`/`process_job`: the worker
  that dequeues the id re-fetches the record and skips when its status is
  `canceled`; dispatching itself performs no status write.  Each id is
  enqueued exactly once, so this fires at most once.
* `writeRunning` — the handler's `update_job(status="running")`
  (`services/jobs.py:48`, `jira.py:454`, `confluence.py:347`,
  `calendar.py:30`, `claude.py:81`): written once, before any terminal
  write; at that moment the status is still `queued`, or already
  `canceled` when a cancel landed between dispatch and this write.
* `failFromDispatched` — any `failed` write by a dispatched handler that
  has not succeeded yet: the validation failures that precede the
  `running` write (`jira.py:446,451`, `confluence.py:339,344`,
  `calendar.py:19,24`, `claude.py:44-54,65-75`) as well as the fault
  conversions after it; `update_job` applies no guard, so the current
  status may be `queued`, `running`, or `canceled`.
* `finishOk` — the handler's `update_job(status="succeeded")`; it always
  follows the `running` write, whose status may meanwhile have been
  flipped to `canceled` by the cancel endpoint.
* `wrapDone` / `wrapFault` — after the `succeeded` write, the same `try`
  still runs `record_event` and `broadcast` (`services/jobs.py:73-77`,
  `jira.py:479-491`); if one of them raises, the `except` clause converts
  the job to `failed` (`services/jobs.py:78-87`, `jira.py:492-493`),
  otherwise the handler returns. -/
inductive JobStep : JobConf → JobConf → Prop
  | cancel (c : JobConf) (h1 : c.status ≠ Status.succeeded) (h2 : c.status ≠ Status.failed) :
      JobStep c { c with status := Status.canceled }
  | dispatch (c : JobConf) (hp : c.phase = Phase.pending) (hc : c.status ≠ Status.canceled) :
      JobStep c { c with phase := Phase.dispatched }
  | writeRunning (c : JobConf) (hp : c.phase = Phase.dispatched)
      (hs : c.status = Status.queued ∨ c.status = Status.canceled) :
      JobStep c { c with status := Status.running }
  | failFromDispatched (c : JobConf) (hp : c.phase = Phase.dispatched) (e : String) :
      JobStep c { status := Status.failed, phase := Phase.finished,
                  result := c.result, error := some e }
  | finishOk (c : JobConf) (hp : c.phase = Phase.dispatched)
      (hs : c.status = Status.running ∨ c.status = Status.canceled) (r : String) :
      JobStep c { status := Status.succeeded, phase := Phase.wrapping,
                  result := some r, error := c.error }
  | wrapDone (c : JobConf) (hp : c.phase = Phase.wrapping) :
      JobStep c { c with phase := Phase.finished }
  | wrapFault (c : JobConf) (hp : c.phase = Phase.wrapping) (e : String) :
      JobStep c { status := Status.failed, phase := Phase.finished,
                  result := c.result, error := some e }

/-- Sample configuration: job canceled while still queued. -/
def confCanceledQueued : JobConf :=
  { status := Status.canceled, phase := Phase.pending, result := none, error := none }

/-- Every configuration reachable from "canceled before dispatch" is that
same configuration: the only enabled step is a repeated cancel, which
rewrites the identical status; the worker's dispatch is blocked by the
canceled-status check, and every other write requires a dispatched or
wrapping handler. -/
theorem canceled_pending_stuck (d : JobConf)
    (hreach : Relation.ReflTransGen JobStep confCanceledQueued d) :
    d = confCanceledQueued := by
  induction hreach with
  | refl => rfl
  | tail hab hbc ih =>
    subst ih
    cases hbc with
    | cancel h1 h2 => rfl
    | dispatch hp hcs => exact absurd rfl hcs
    | writeRunning hp hs => exact absurd hp (by decide)
    | failFromDispatched hp e => exact absurd hp (by decide)
    | finishOk hp hs r => exact absurd hp (by decide)
    | wrapDone hp => exact absurd hp (by decide)
    | wrapFault hp e => exact absurd hp (by decide)

/-- C8: a job canceled while still queued — a cancel step taken directly
from the initial configuration, before the worker dispatches — stays
`canceled` forever: every configuration reachable afterwards still has
status `canceled`, the handler was never dispatched, and `result` and
`error` remain unset. -/
theorem C8_cancel_queued_skips_handler (c d : JobConf)
    (hstep : JobStep jobInit c) (hcanceled : c.status = Status.canceled)
    (hreach : Relation.ReflTransGen JobStep c d) :
    d.status = Status.canceled ∧ d.phase = Phase.pending ∧
      d.result = none ∧ d.error = none := by
  have hcq : c = confCanceledQueued := by
    cases hstep with
    | cancel h1 h2 => rfl
    | dispatch hp hcs => exact absurd hcanceled (by decide)
    | writeRunning hp hs => exact absurd hp (by decide)
    | failFromDispatched hp e => exact absurd hp (by decide)
    | finishOk hp hs r => exact absurd hp (by decide)
    | wrapDone hp => exact absurd hp (by decide)
    | wrapFault hp e => exact absurd hp (by decide)
  subst hcq
  have := canceled_pending_stuck d hreach
  subst this
  exact ⟨rfl, rfl, rfl, rfl⟩

/-- Witness for C8 at the concrete canceled-while-queued configuration. -/
theorem C8_cancel_queued_skips_handler_witness :
    confCanceledQueued.status = Status.canceled ∧
      confCanceledQueued.phase = Phase.pending ∧
      confCanceledQueued.result = none ∧ confCanceledQueued.error = none :=
  C8_cancel_queued_skips_handler confCanceledQueued confCanceledQueued
    (JobStep.cancel jobInit (by decide) (by decide)) rfl Relation.ReflTransGen.refl

/-- Outcome of executing a handler's body: either the handler runs to
completion having itself written a terminal status (and possibly an error
message), or its execution raises a fault whose Python string is `msg`
(`str(exc)`, which may be empty). -/
inductive HandlerOutcome
  | completes (finalStatus : Status) (errorMsg : Option String)
  | fault (msg : String)
deriving DecidableEq, Repr

/-- The job-record effect observed after one worker iteration: the status
written last and the stored error message, if any. -/
structure WorkerEffect where
  finalStatus : Status
  errorMsg : Option String
deriving DecidableEq, Repr

/-- `services/jobs.py::process_job` dispatch, with the exception structure
of each branch: `run_claude_job` has no catch-all, so a fault raised there
propagates out of `process_job`; the three `run_*_sync_job` connector
handlers wrap their sync bodies in `try/except Exception` and convert a
fault into `_fail_job(str(exc))`; and the default (simulate) branch sits
inside `process_job`'s own `try/except Exception` safety net, which writes
status `failed` with `error = {message: str(exc)}`.  `Except.error` models
a Python exception escaping `process_job`. -/
def process_job (jobType : String) (body : HandlerOutcome) : Except String WorkerEffect :=
  if jobType == "claude.spawn" then
    match body with
    | HandlerOutcome.completes s e => Except.ok { finalStatus := s, errorMsg := e }
    | HandlerOutcome.fault m => Except.error m
  else if jobType == "connector.calendar.sync" || jobType == "connector.jira.sync"
      || jobType == "connector.confluence.sync" then
    match body with
    | HandlerOutcome.completes s e => Except.ok { finalStatus := s, errorMsg := e }
    | HandlerOutcome.fault m =>
        Except.ok { finalStatus := Status.failed, errorMsg := some m }
  else
    match body with
    | HandlerOutcome.completes s e => Except.ok { finalStatus := s, errorMsg := e }
    | HandlerOutcome.fault m =>
        Except.ok { finalStatus := Status.failed, errorMsg := some m }

/-- One `worker_loop` iteration around `process_job`: the loop body is
`try ... finally ...` with no `except` clause, so an exception escaping
`process_job` escapes the iteration and the `while True` loop with it. -/
def worker_iteration (jobType : String) (body : HandlerOutcome) : Except String WorkerEffect :=
  process_job jobType body

/-- The worker task survives its iteration (and can dequeue the next
queued job) exactly when no exception escaped it. -/
def workerSurvives (jobType : String) (body : HandlerOutcome) : Bool :=
  (worker_iteration jobType body).isOk

/-- The literal reading of claim C3: for every job kind, a handler fault
is caught at the worker-pool boundary, converted to status `failed` with a
non-empty error message, and the worker survives to process its next
job. -/
def faultIsolationClaim : Prop :=
  ∀ (jobType : String) (m : String),
    ∃ eff, worker_iteration jobType (HandlerOutcome.fault m) = Except.ok eff ∧
      eff.finalStatus = Status.failed ∧
      (∃ s, eff.errorMsg = some s ∧ s ≠ "") ∧
      workerSurvives jobType (HandlerOutcome.fault m) = true

/-- C3 — counterexample: a fault raised by the `claude.spawn` handler is
not caught anywhere — neither `run_claude_job` nor `worker_loop` has a
catch-all — so it escapes the worker iteration and the claim fails. -/
theorem C3_counterexample : ¬ faultIsolationClaim := by
  intro h
  obtain ⟨eff, heff, -⟩ := h "claude.spawn" "boom"
  simp [worker_iteration, process_job] at heff

/-- C3 (amended): a fault raised inside the guarded region of the simulate
branch or of a connector sync handler is converted to status `failed` with
the fault's message stored verbatim (empty exactly when the exception's
string is empty), and the worker survives to process its next job; but a
fault raised by the `claude.spawn` handler, which has no catch-all,
escapes `worker_loop` — whose `try` has no `except` — and terminates that
worker task. -/
theorem C3_fault_isolation_amended (jobType m : String) (hne : jobType ≠ "claude.spawn") :
    worker_iteration jobType (HandlerOutcome.fault m)
        = Except.ok { finalStatus := Status.failed, errorMsg := some m } ∧
    workerSurvives jobType (HandlerOutcome.fault m) = true ∧
    worker_iteration "claude.spawn" (HandlerOutcome.fault m) = Except.error m ∧
    workerSurvives "claude.spawn" (HandlerOutcome.fault m) = false := by
  have hbe : (jobType == "claude.spawn") = false := by
    simpa using hne
  refine ⟨?_, ?_, by simp [worker_iteration, process_job], by simp [workerSurvives, worker_iteration, process_job, Except.isOk, Except.toBool]⟩
  · simp only [worker_iteration, process_job, hbe, Bool.false_eq_true, if_false]
    split <;> rfl
  · simp only [workerSurvives, worker_iteration, process_job, hbe, Bool.false_eq_true, if_false]
    split <;> rfl

/-- Witness for the amended C3 theorem at the Jira sync kind. -/
theorem C3_fault_isolation_amended_witness :
    worker_iteration "connector.jira.sync" (HandlerOutcome.fault "boom")
      = Except.ok { finalStatus := Status.failed, errorMsg := some "boom" } :=
  (C3_fault_isolation_amended "connector.jira.sync" "boom" (by decide)).1

/-- The stored `last_sync_at` of a connector account as
`services/scheduler.py::_is_due` sees it: SQL `NULL` or an empty string
(`if not last_sync_at`), a string rejected by `parse_iso_to_epoch`
(`except ValueError`), or a string parsing to an epoch timestamp. -/
inductive LastSync
  | absent
  | malformed
  | parsed (ts : Int)
deriving DecidableEq, Repr

/-- `services/scheduler.py::POLL_INTERVAL_SEC`. -/
def POLL_INTERVAL_SEC : Int := 600

/-- `services/scheduler.py::_is_due`: due when `last_sync_at` is missing
or unparseable, or when its age is at least the poll interval. -/
def _is_due (last : LastSync) (now : Int) : Bool :=
  match last with
  | LastSync.absent => true
  | LastSync.malformed => true
  | LastSync.parsed ts => decide (now - ts ≥ POLL_INTERVAL_SEC)

/-- One registered connector account as listed by
`atlassian_repo.list_accounts` with its attached `last_sync_at`. -/
structure SchedAccount where
  account_id : String
  last_sync_at : LastSync
deriving DecidableEq, Repr

/-- `services/scheduler.py::_queue_sync_jobs`, restricted to one service:
for every account of that service, skip unless `_is_due`, otherwise
create and enqueue a job of kind `connector.{service}.sync` carrying the
account id. -/
def _queue_sync_jobs (service : String) (accounts : List SchedAccount) (now : Int) :
    List (String × String) :=
  (accounts.filter (fun a => _is_due a.last_sync_at now)).map
    (fun a => ("connector." ++ service ++ ".sync", a.account_id))

/-- C9: on one scheduler tick, every enqueued sync job originates from an
account that `_is_due` accepted; an account with a valid stored
`last_sync_at` is due exactly when its age is at least the poll interval
(600 s); and an account whose `last_sync_at` is one second old is never
enqueued. -/
theorem C9_scheduler_due (service : String) (accounts : List SchedAccount) (now ts : Int)
    (a : SchedAccount) (ha : a ∈ accounts)
    (hnodup : (accounts.map SchedAccount.account_id).Nodup) :
    (∀ entry ∈ _queue_sync_jobs service accounts now,
       ∃ b, b ∈ accounts ∧ _is_due b.last_sync_at now = true ∧
         entry = ("connector." ++ service ++ ".sync", b.account_id)) ∧
    (_is_due (LastSync.parsed ts) now = true ↔ now - ts ≥ POLL_INTERVAL_SEC) ∧
    (a.last_sync_at = LastSync.parsed (now - 1) →
       ("connector." ++ service ++ ".sync", a.account_id)
         ∉ _queue_sync_jobs service accounts now) := by
  refine ⟨?_, ?_, ?_⟩
  · intro entry hentry
    simp only [_queue_sync_jobs, List.mem_map, List.mem_filter] at hentry
    obtain ⟨b, ⟨hb, hdue⟩, hbe⟩ := hentry
    exact ⟨b, hb, hdue, hbe.symm⟩
  · simp [_is_due]
  · intro hlast hmem
    simp only [_queue_sync_jobs, List.mem_map, List.mem_filter] at hmem
    obtain ⟨b, ⟨hb, hdue⟩, hbe⟩ := hmem
    have hid : b.account_id = a.account_id := (Prod.mk.injEq _ _ _ _).mp hbe |>.2
    have hba : b = a := by
      have hinj := List.inj_on_of_nodup_map hnodup
      exact hinj hb ha hid
    subst hba
    rw [hlast] at hdue
    simp only [_is_due, POLL_INTERVAL_SEC, decide_eq_true_eq] at hdue
    omega

/-- Concrete account for the C9 witness: last synced one second ago. -/
def schedSampleAccount : SchedAccount :=
  { account_id := "acct1", last_sync_at := LastSync.parsed 999 }

/-- Witness for C9: an account synced one second before the tick is not
enqueued. -/
theorem C9_scheduler_due_witness :
    ("connector." ++ "jira" ++ ".sync", "acct1")
      ∉ _queue_sync_jobs "jira" [schedSampleAccount] 1000 := by
  have h := C9_scheduler_due "jira" [schedSampleAccount] 1000 999 schedSampleAccount
    (by simp) (by simp)
  exact h.2.2 (by decide)

/-- Outcome of one `websocket.send_json` call to a subscriber: delivered,
raised `RuntimeError` (the closed-connection error, the only class
`broadcast` catches), or raised an exception of any other class. -/
inductive SendOutcome
  | delivered
  | runtimeError
  | otherError (msg : String)
deriving DecidableEq, Repr

/-- A live connection handle in `WebSocketManager.connections`, together
with the behavior its next send will exhibit; `id` is the handle's
identity in the set. -/
structure Conn where
  id : Nat
  outcome : SendOutcome
deriving DecidableEq, Repr

/-- Ids of the connections whose send succeeds. -/
def deliveredIds (conns : List Conn) : List Nat :=
  (conns.filter (fun c => c.outcome == SendOutcome.delivered)).map Conn.id

/-- Ids collected in `dead`: connections whose send raises
`RuntimeError`. -/
def deadIds (conns : List Conn) : List Nat :=
  (conns.filter (fun c => c.outcome == SendOutcome.runtimeError)).map Conn.id

/-- The connection set after the discard loop removes the `dead` ids. -/
def surviving (conns : List Conn) : List Conn :=
  conns.filter (fun c => !((deadIds conns).contains c.id))

/-- The `for conn in self.connections` loop of
`websocket/manager.py::broadcast`: try `send_json` on each connection in
iteration order; on `RuntimeError` append the connection to `dead` and
continue; an exception of any other class immediately propagates out of
`broadcast`.  Returns the delivered ids and the `dead` ids. -/
def sendAll : List Conn → List Nat → List Nat → Except String (List Nat × List Nat)
  | [], delivered, dead => Except.ok (delivered, dead)
  | c :: rest, delivered, dead =>
    match c.outcome with
    | SendOutcome.delivered => sendAll rest (delivered ++ [c.id]) dead
    | SendOutcome.runtimeError => sendAll rest delivered (dead ++ [c.id])
    | SendOutcome.otherError m => Except.error m

/-- `websocket/manager.py::broadcast`: run the send loop and then discard
every `dead` connection from the set; when an exception propagates, the
discard loop never runs, so the connection set is left unchanged. -/
def broadcast (conns : List Conn) : Except String (List Nat × List Conn) :=
  match sendAll conns [] [] with
  | Except.error m => Except.error m
  | Except.ok (delivered, dead) =>
      Except.ok (delivered, conns.filter (fun c => !(dead.contains c.id)))

/-- The literal reading of claim C7: broadcast never propagates an error,
delivers to every healthy subscriber, and removes every subscriber whose
delivery attempt failed, whatever the reason. -/
def broadcastClaim : Prop :=
  ∀ conns : List Conn, ∃ delivered survivors,
    broadcast conns = Except.ok (delivered, survivors) ∧
    (∀ c ∈ conns, c.outcome = SendOutcome.delivered → c.id ∈ delivered) ∧
    (∀ c ∈ conns, c.outcome ≠ SendOutcome.delivered → c ∉ survivors)

/-- C7 — counterexample: a subscriber whose send raises an exception that
is not a `RuntimeError` makes `broadcast` itself raise: the remaining
subscriber is skipped, nobody is removed, and the error reaches the
caller, so the claim fails. -/
theorem C7_counterexample : ¬ broadcastClaim := by
  intro h
  obtain ⟨d, s, heq, -, -⟩ :=
    h [{ id := 1, outcome := SendOutcome.otherError "boom" },
       { id := 2, outcome := SendOutcome.delivered }]
  simp [broadcast, sendAll] at heq

/-- When no send raises outside `RuntimeError`, the send loop delivers to
every healthy connection and collects exactly the `RuntimeError` ones. -/
theorem sendAll_no_other (conns : List Conn) :
    ∀ (delivered dead : List Nat),
    (∀ c ∈ conns, ∀ m, c.outcome ≠ SendOutcome.otherError m) →
    sendAll conns delivered dead
      = Except.ok (delivered ++ deliveredIds conns, dead ++ deadIds conns) := by
  induction conns with
  | nil => intro delivered dead h; simp [sendAll, deliveredIds, deadIds]
  | cons c rest ih =>
    intro delivered dead h
    cases hc : c.outcome with
    | delivered =>
      simp only [sendAll, hc]
      rw [ih _ _ (fun d hd m => h d (List.mem_cons_of_mem c hd) m)]
      simp [deliveredIds, deadIds, List.filter_cons, hc]
    | runtimeError =>
      simp only [sendAll, hc]
      rw [ih _ _ (fun d hd m => h d (List.mem_cons_of_mem c hd) m)]
      simp [deliveredIds, deadIds, List.filter_cons, hc]
    | otherError m =>
      exact absurd hc (h c (List.mem_cons_self c rest) m)

/-- C7 (amended): when every failing send raises `RuntimeError` — the
closed-connection error, the only class the code catches — `broadcast`
returns normally, delivers to every healthy subscriber, and removes
exactly the connections sharing an id with a failed one; a subscriber
failing with any other exception class instead aborts the loop, removes
nobody, and propagates the error to the caller
(`C7_counterexample`). -/
theorem C7_broadcast_amended (conns : List Conn)
    (hno : ∀ c ∈ conns, ∀ m, c.outcome ≠ SendOutcome.otherError m) :
    broadcast conns = Except.ok (deliveredIds conns, surviving conns) ∧
    (∀ c ∈ conns, c.outcome = SendOutcome.runtimeError → c ∉ surviving conns) ∧
    (∀ c ∈ conns, (c ∈ surviving conns ↔
       ¬ ∃ d, d ∈ conns ∧ d.id = c.id ∧ d.outcome = SendOutcome.runtimeError)) := by
  have hmem : ∀ c ∈ conns, (c ∈ surviving conns ↔
      ¬ ∃ d, d ∈ conns ∧ d.id = c.id ∧ d.outcome = SendOutcome.runtimeError) := by
    intro c hcmem
    simp only [surviving, deadIds, List.mem_filter, List.mem_map, Bool.not_eq_true']
    constructor
    · rintro ⟨-, hnc⟩ ⟨d, hd, hid, hout⟩
      rw [List.contains_eq_any_beq] at hnc
      simp only [List.any_eq_false, List.mem_map, List.mem_filter] at hnc
      exact absurd (beq_iff_eq.mpr hid.symm)
        (by simpa using hnc d.id ⟨d, ⟨hd, by simp [hout]⟩, rfl⟩)
    · intro hnotdead
      refine ⟨hcmem, ?_⟩
      rw [List.contains_eq_any_beq]
      simp only [List.any_eq_false, List.mem_map, List.mem_filter]
      rintro x ⟨d, ⟨hd, hout⟩, rfl⟩
      simp only [beq_iff_eq] at hout ⊢
      exact fun hid => hnotdead ⟨d, hd, hid.symm, hout⟩
  refine ⟨?_, ?_, hmem⟩
  · simp only [broadcast]
    rw [sendAll_no_other conns [] [] hno]
    simp [surviving]
  · intro c hcmem hout hsurv
    exact ((hmem c hcmem).mp hsurv) ⟨c, hcmem, rfl, hout⟩

/-- Concrete connection set for the C7 witness. -/
def sampleConns : List Conn :=
  [{ id := 1, outcome := SendOutcome.delivered },
   { id := 2, outcome := SendOutcome.runtimeError }]

/-- Witness for the amended C7 theorem: one healthy and one
`RuntimeError` subscriber — delivery reaches id 1 and id 2 is removed. -/
theorem C7_broadcast_amended_witness :
    broadcast sampleConns
      = Except.ok ([1], [{ id := 1, outcome := SendOutcome.delivered }]) :=
  ((C7_broadcast_amended sampleConns (by
    rintro c hc m
    simp only [sampleConns, List.mem_cons, List.mem_singleton] at hc
    rcases hc with rfl | rfl | h
    · simp
    · simp
    · simp at h)).1).trans (by rfl)

/-- One incoming activity event dict as built by `_make_event` in
`services/jira.py` and `services/confluence.py` (the repository adds the
bookkeeping timestamps). -/
structure AEventIn where
  event_id : String
  source : String
  account_id : String
  event_type : String
  title : String
  description : Option String
  url : Option String
  actor : Option String
  event_time : String
  event_ts : Int
  raw_json : Option String
deriving DecidableEq, Repr

/-- One stored row of the `activity_events` table (without its
`event_id` primary key, which the association list carries). -/
structure ARecord where
  source : String
  account_id : String
  event_type : String
  title : String
  description : Option String
  url : Option String
  actor : Option String
  event_time : String
  event_ts : Int
  created_at : Nat
  updated_at : Nat
  raw_json : Option String
deriving DecidableEq, Repr

/-- The row inserted for a fresh event id
(`created_at = updated_at = now`, the batch's single `utc_now()`). -/
def insertRecord (e : AEventIn) (now : Nat) : ARecord :=
  { source := e.source, account_id := e.account_id, event_type := e.event_type,
    title := e.title, description := e.description, url := e.url, actor := e.actor,
    event_time := e.event_time, event_ts := e.event_ts,
    created_at := now, updated_at := now, raw_json := e.raw_json }

/-- The `on conflict(event_id) do update` row of
`atlassian_repo.upsert_events`: every remote field is overwritten from
the incoming event, `updated_at` is refreshed, and `created_at` — absent
from the `do update set` list — is preserved. -/
def conflictUpdate (old : ARecord) (e : AEventIn) (now : Nat) : ARecord :=
  { source := e.source, account_id := e.account_id, event_type := e.event_type,
    title := e.title, description := e.description, url := e.url, actor := e.actor,
    event_time := e.event_time, event_ts := e.event_ts,
    created_at := old.created_at, updated_at := now, raw_json := e.raw_json }

/-- An activity row with its `updated_at` bookkeeping stamp erased. -/
structure ACore where
  source : String
  account_id : String
  event_type : String
  title : String
  description : Option String
  url : Option String
  actor : Option String
  event_time : String
  event_ts : Int
  created_at : Nat
  raw_json : Option String
deriving DecidableEq, Repr

/-- Erase the `updated_at` stamp of a stored activity row. -/
def ARecord.core (r : ARecord) : ACore :=
  { source := r.source, account_id := r.account_id, event_type := r.event_type,
    title := r.title, description := r.description, url := r.url, actor := r.actor,
    event_time := r.event_time, event_ts := r.event_ts,
    created_at := r.created_at, raw_json := r.raw_json }

/-- The effect of one parameter tuple of a SQLite
`insert ... on conflict(key) do update` statement: insert `ins e` when the
key is absent, otherwise rewrite the existing row to `upd old e`. -/
def upsertRow {ε ρ : Type} (key : ε → String) (ins : ε → ρ) (upd : ρ → ε → ρ)
    (tbl : List (String × ρ)) (e : ε) : List (String × ρ) :=
  if (lookupKey tbl (key e)).isSome then
    updateKey tbl (key e) (fun old => upd old e)
  else
    tbl ++ [(key e, ins e)]

/-- `executemany` of an upsert statement: fold `upsertRow` over the
parameter tuples in order. -/
def upsertMany {ε ρ : Type} (key : ε → String) (ins : ε → ρ) (upd : ρ → ε → ρ)
    (tbl : List (String × ρ)) (events : List ε) : List (String × ρ) :=
  events.foldl (upsertRow key ins upd) tbl

/-- `db/atlassian_repo.py::upsert_events`: upsert the batch keyed by
`event_id`, with `utc_now()` computed once for the whole batch (an empty
batch returns early, which the fold also does). -/
def upsert_events (now : Nat) (tbl : List (String × ARecord)) (events : List AEventIn) :
    List (String × ARecord) :=
  upsertMany AEventIn.event_id (fun e => insertRecord e now)
    (fun old e => conflictUpdate old e now) tbl events

/-- One row of the `sync_state` table. -/
structure SyncState where
  cursor : Option String
  last_sync_at : Nat
deriving DecidableEq, Repr

/-- `db/atlassian_repo.py::fetch_sync_state`. -/
def fetch_sync_state (states : List (String × SyncState)) (connector : String) :
    Option SyncState :=
  lookupKey states connector

/-- `db/atlassian_repo.py::update_sync_state`: insert-or-replace the row
for the connector key, stamping `last_sync_at = utc_now()` and storing
the caller-supplied cursor as given. -/
def update_sync_state (states : List (String × SyncState)) (connector : String)
    (cursor : Option String) (now : Nat) : List (String × SyncState) :=
  if (lookupKey states connector).isSome then
    updateKey states connector (fun _ => { cursor := cursor, last_sync_at := now })
  else
    states ++ [(connector, { cursor := cursor, last_sync_at := now })]

/-- One row of `atlassian_accounts` (the credential columns are opaque to
the sync algorithm and omitted). -/
structure AtlAccount where
  account_id : String
  service : String
deriving DecidableEq, Repr

/-- `atlassian_repo._attach_sync_state`: the `last_sync_at` attached to a
fetched account is read from `sync_state` under the key
`service:account_id`; only that column is selected — the stored cursor is
not read. -/
def attach_last_sync (states : List (String × SyncState)) (service account_id : String) :
    Option Nat :=
  (lookupKey states (service ++ ":" ++ account_id)).map SyncState.last_sync_at

/-- `atlassian_repo.fetch_account` composed with `_attach_sync_state`:
the account row plus its attached `last_sync_at`. -/
def fetch_account (accounts : List (String × AtlAccount))
    (states : List (String × SyncState)) (account_id : String) :
    Option (AtlAccount × Option Nat) :=
  (lookupKey accounts account_id).map
    (fun a => (a, attach_last_sync states a.service a.account_id))

/-- Replace every stored cursor (by an arbitrary function of the
connector key) while keeping keys and `last_sync_at` — used to state that
the Jira/Confluence syncs never read the stored cursor. -/
def setCursors (f : String → Option String) (states : List (String × SyncState)) :
    List (String × SyncState) :=
  states.map (fun kv => (kv.1, { cursor := f kv.1, last_sync_at := kv.2.last_sync_at }))

/-- `services/jira.py::DEFAULT_LOOKBACK_DAYS` (same constant in
`confluence.py`). -/
def DEFAULT_LOOKBACK_DAYS : Nat := 7

/-- `services/jira.py::_compute_since_ts`: with `force`, or without a
stored `last_sync_at`, use the fixed lookback window ending now;
otherwise resume from `last_sync_at`.  (System-written `last_sync_at`
values always parse, so the `ValueError` fallback is not reachable from
stored state and is folded into the `none` case.) -/
def compute_since_ts_jira (last_sync_at : Option Nat) (force : Bool) (nowEpoch : Nat) : Nat :=
  let lookback_ts := nowEpoch - DEFAULT_LOOKBACK_DAYS * 86400
  if force then lookback_ts
  else
    match last_sync_at with
    | some ts => ts
    | none => lookback_ts

/-- `services/confluence.py::_compute_since_ts` (no `force` flag). -/
def compute_since_ts_confluence (last_sync_at : Option Nat) (nowEpoch : Nat) : Nat :=
  match last_sync_at with
  | some ts => ts
  | none => nowEpoch - DEFAULT_LOOKBACK_DAYS * 86400

/-- `services/jira.py::_fail_job` (textually repeated in `confluence.py`
and `calendar.py`): mark the job failed carrying the message as its
error, record an error event, emit a log frame, and broadcast the failed
status. -/
def fail_job (jdb : JobsDb) (job_id message : String) (now : Nat) : JobsDb :=
  let jdb1 := update_job jdb job_id
    { status := some Status.failed, error := some (some message) } now
  let jdb2 := record_event jdb1 job_id "error" message
  let jdb3 := { jdb2 with broadcasts := jdb2.broadcasts ++ [Payload.log message] }
  broadcast_status jdb3 job_id Status.failed

/-- The stores an Atlassian connector sync job touches: the job store,
the accounts table, the `activity_events` table, and the `sync_state`
table. -/
structure SyncDb where
  jobs : JobsDb
  accounts : List (String × AtlAccount)
  activity : List (String × ARecord)
  syncStates : List (String × SyncState)
deriving DecidableEq, Repr

/-- Outcome of the external fetch plus the `upsert_events` storage call
inside the `try` of a sync job, abstracting the adapter: the fetch
returns a batch, the fetch raises, or the storage call raises after
persisting a prefix of the batch. -/
inductive SyncAttempt
  | fetched (events : List AEventIn)
  | fetchRaises (msg : String)
  | upsertRaises (events : List AEventIn) (prefixLen : Nat) (msg : String)
deriving DecidableEq, Repr

/-- `services/jira.py::run_jira_sync_job`.  `attempt since_ts` is the
combined outcome of `_fetch_jira_events(account, since_ts)` and the
subsequent `upsert_events` call; `now` stamps every write of this run and
`nowEpoch` is the wall clock read by `_compute_since_ts`. -/
def run_jira_sync_job (db : SyncDb) (job_id : String)
    (payload_account_id : Option String) (force : Bool)
    (attempt : Nat → SyncAttempt) (now nowEpoch : Nat) : SyncDb :=
  match payload_account_id with
  | none =>
      { db with jobs := fail_job db.jobs job_id "account_id is required for jira sync" now }
  | some account_id =>
      match fetch_account db.accounts db.syncStates account_id with
      | none =>
          { db with jobs := fail_job db.jobs job_id ("jira account not found: " ++ account_id) now }
      | some (account, last_sync_at) =>
          if account.service ≠ "jira" then
            { db with jobs := fail_job db.jobs job_id ("jira account not found: " ++ account_id) now }
          else
            let jdb := record_event
              (broadcast_status
                (update_job db.jobs job_id
                  { status := some Status.running, progress := some (1/10 : ℚ),
                    message := some "Starting Jira sync" } now)
                job_id Status.running)
              job_id "info" ("jira sync started for " ++ account_id)
            match attempt (compute_since_ts_jira last_sync_at force nowEpoch) with
            | SyncAttempt.fetchRaises m =>
                { db with jobs := fail_job jdb job_id m now }
            | SyncAttempt.upsertRaises events k m =>
                { db with jobs := fail_job jdb job_id m now,
                          activity := upsert_events now db.activity (events.take k) }
            | SyncAttempt.fetched events =>
                let activity := upsert_events now db.activity events
                let syncStates :=
                  update_sync_state db.syncStates ("jira:" ++ account_id) none now
                let jdb := { jdb with broadcasts := jdb.broadcasts
                              ++ [Payload.activitySync "jira" account_id events.length] }
                let jdb := update_job jdb job_id
                  { status := some Status.succeeded, progress := some 1,
                    message := some ("Synced " ++ toString events.length ++ " Jira events"),
                    result := some (some ("synced_events=" ++ toString events.length)) } now
                let jdb := record_event jdb job_id "info"
                  ("Synced " ++ toString events.length ++ " Jira events")
                let jdb := broadcast_status jdb job_id Status.succeeded
                { db with jobs := jdb, activity := activity, syncStates := syncStates }

/-- `services/confluence.py::run_confluence_sync_job`: structurally the
Jira run without the `force` flag, against connector keys
`confluence:{account_id}`. -/
def run_confluence_sync_job (db : SyncDb) (job_id : String)
    (payload_account_id : Option String)
    (attempt : Nat → SyncAttempt) (now nowEpoch : Nat) : SyncDb :=
  match payload_account_id with
  | none =>
      { db with jobs := fail_job db.jobs job_id "account_id is required for confluence sync" now }
  | some account_id =>
      match fetch_account db.accounts db.syncStates account_id with
      | none =>
          { db with jobs := fail_job db.jobs job_id ("confluence account not found: " ++ account_id) now }
      | some (account, last_sync_at) =>
          if account.service ≠ "confluence" then
            { db with jobs := fail_job db.jobs job_id ("confluence account not found: " ++ account_id) now }
          else
            let jdb := record_event
              (broadcast_status
                (update_job db.jobs job_id
                  { status := some Status.running, progress := some (1/10 : ℚ),
                    message := some "Starting Confluence sync" } now)
                job_id Status.running)
              job_id "info" ("confluence sync started for " ++ account_id)
            match attempt (compute_since_ts_confluence last_sync_at nowEpoch) with
            | SyncAttempt.fetchRaises m =>
                { db with jobs := fail_job jdb job_id m now }
            | SyncAttempt.upsertRaises events k m =>
                { db with jobs := fail_job jdb job_id m now,
                          activity := upsert_events now db.activity (events.take k) }
            | SyncAttempt.fetched events =>
                let activity := upsert_events now db.activity events
                let syncStates :=
                  update_sync_state db.syncStates ("confluence:" ++ account_id) none now
                let jdb := { jdb with broadcasts := jdb.broadcasts
                              ++ [Payload.activitySync "confluence" account_id events.length] }
                let jdb := update_job jdb job_id
                  { status := some Status.succeeded, progress := some 1,
                    message := some ("Synced " ++ toString events.length ++ " Confluence events"),
                    result := some (some ("synced_events=" ++ toString events.length)) } now
                let jdb := record_event jdb job_id "info"
                  ("Synced " ++ toString events.length ++ " Confluence events")
                let jdb := broadcast_status jdb job_id Status.succeeded
                { db with jobs := jdb, activity := activity, syncStates := syncStates }

/-- `setCursors` changes nothing a lookup observes beyond the cursor
field. -/
theorem lookupKey_setCursors (f : String → Option String)
    (states : List (String × SyncState)) (k : String) :
    lookupKey (setCursors f states) k
      = (lookupKey states k).map
          (fun st => { cursor := f k, last_sync_at := st.last_sync_at }) := by
  induction states with
  | nil => rfl
  | cons hd tl ih =>
    simp only [setCursors, List.map_cons, lookupKey] at ih ⊢
    by_cases h : (hd.1 == k) = true
    · have hk : hd.1 = k := by simpa using h
      rw [if_pos h, if_pos h]
      subst hk
      rfl
    · rw [if_neg h, if_neg h]
      exact ih

/-- The `last_sync_at` attached to an account does not depend on the
stored cursors. -/
theorem attach_last_sync_setCursors (f : String → Option String)
    (states : List (String × SyncState)) (service account_id : String) :
    attach_last_sync (setCursors f states) service account_id
      = attach_last_sync states service account_id := by
  unfold attach_last_sync
  rw [lookupKey_setCursors]
  cases lookupKey states (service ++ ":" ++ account_id) <;> rfl

/-- `fetch_account` does not depend on the stored cursors. -/
theorem fetch_account_setCursors (accounts : List (String × AtlAccount))
    (states : List (String × SyncState)) (f : String → Option String) (account_id : String) :
    fetch_account accounts (setCursors f states) account_id
      = fetch_account accounts states account_id := by
  unfold fetch_account
  cases lookupKey accounts account_id with
  | none => rfl
  | some a =>
    simp only [Option.map_some']
    rw [attach_last_sync_setCursors]

/-- A key absent from the left part of an appended table is looked up in
the right part. -/
theorem lookupKey_append_right {β : Type} (l1 l2 : List (String × β)) (k : String)
    (h : lookupKey l1 k = none) :
    lookupKey (l1 ++ l2) k = lookupKey l2 k := by
  induction l1 with
  | nil => rfl
  | cons hd tl ih =>
    simp only [lookupKey, List.cons_append] at h ⊢
    by_cases hb : (hd.1 == k) = true
    · rw [if_pos hb] at h; cases h
    · rw [if_neg hb] at h ⊢
      exact ih h

/-- Reading the sync state back right after `update_sync_state` yields
exactly the row just written. -/
theorem fetch_update_sync_state_self (states : List (String × SyncState))
    (connector : String) (cursor : Option String) (now : Nat) :
    fetch_sync_state (update_sync_state states connector cursor now) connector
      = some { cursor := cursor, last_sync_at := now } := by
  unfold fetch_sync_state update_sync_state
  by_cases h : (lookupKey states connector).isSome
  · rw [if_pos h, lookupKey_updateKey_self]
    obtain ⟨st, hst⟩ := Option.isSome_iff_exists.mp h
    rw [hst]; rfl
  · rw [if_neg h]
    rw [lookupKey_append_right _ _ _ (Option.not_isSome_iff_eq_none.mp h)]
    simp [lookupKey]

/-- The Jira sync run reads the `sync_state` table only through
`_attach_sync_state`'s `last_sync_at` column: its effect on the job store
and the activity table is invariant under arbitrary rewriting of every
stored cursor. -/
theorem run_jira_cursor_blind (db : SyncDb) (job_id : String) (pacct : Option String)
    (force : Bool) (attempt : Nat → SyncAttempt) (now nowEpoch : Nat)
    (f : String → Option String) :
    (run_jira_sync_job { db with syncStates := setCursors f db.syncStates }
        job_id pacct force attempt now nowEpoch).jobs
      = (run_jira_sync_job db job_id pacct force attempt now nowEpoch).jobs ∧
    (run_jira_sync_job { db with syncStates := setCursors f db.syncStates }
        job_id pacct force attempt now nowEpoch).activity
      = (run_jira_sync_job db job_id pacct force attempt now nowEpoch).activity := by
  rcases pacct with - | account_id
  · exact ⟨rfl, rfl⟩
  · have hfa' : fetch_account db.accounts (setCursors f db.syncStates) account_id
        = fetch_account db.accounts db.syncStates account_id :=
      fetch_account_setCursors db.accounts db.syncStates f account_id
    rcases hfa : fetch_account db.accounts db.syncStates account_id with - | ⟨account, last⟩
    · constructor <;> simp [run_jira_sync_job, hfa', hfa]
    · by_cases hsvc : account.service = "jira"
      · rcases hat : attempt (compute_since_ts_jira last force nowEpoch)
          with events | m | ⟨events, k, m⟩ <;>
          constructor <;> simp [run_jira_sync_job, hfa', hfa, hsvc, hat]
      · constructor <;> simp [run_jira_sync_job, hfa', hfa, hsvc]

/-- The Confluence sync run is likewise blind to every stored cursor. -/
theorem run_confluence_cursor_blind (db : SyncDb) (job_id : String) (pacct : Option String)
    (attempt : Nat → SyncAttempt) (now nowEpoch : Nat) (f : String → Option String) :
    (run_confluence_sync_job { db with syncStates := setCursors f db.syncStates }
        job_id pacct attempt now nowEpoch).jobs
      = (run_confluence_sync_job db job_id pacct attempt now nowEpoch).jobs ∧
    (run_confluence_sync_job { db with syncStates := setCursors f db.syncStates }
        job_id pacct attempt now nowEpoch).activity
      = (run_confluence_sync_job db job_id pacct attempt now nowEpoch).activity := by
  rcases pacct with - | account_id
  · exact ⟨rfl, rfl⟩
  · have hfa' : fetch_account db.accounts (setCursors f db.syncStates) account_id
        = fetch_account db.accounts db.syncStates account_id :=
      fetch_account_setCursors db.accounts db.syncStates f account_id
    rcases hfa : fetch_account db.accounts db.syncStates account_id with - | ⟨account, last⟩
    · constructor <;> simp [run_confluence_sync_job, hfa', hfa]
    · by_cases hsvc : account.service = "confluence"
      · rcases hat : attempt (compute_since_ts_confluence last nowEpoch)
          with events | m | ⟨events, k, m⟩ <;>
          constructor <;> simp [run_confluence_sync_job, hfa', hfa, hsvc, hat]
      · constructor <;> simp [run_confluence_sync_job, hfa', hfa, hsvc]

/-- C10: every successful Jira or Confluence sync persists a null cursor
(`update_sync_state` is invoked with cursor `None`, so reading the
connector's sync state back yields `cursor = none` with
`last_sync_at = now`), and the incremental position is derived solely
from `last_sync_at` and the fixed lookback window: both runs are
invariant under arbitrary rewriting of every stored cursor. -/
theorem C10_null_cursor
    (db db2 : SyncDb) (job_id job_id2 aid aid2 : String) (force : Bool)
    (attempt attempt2 : Nat → SyncAttempt) (now nowEpoch now2 nowEpoch2 : Nat)
    (f f2 : String → Option String)
    (acc acc2 : AtlAccount) (last last2 : Option Nat) (events events2 : List AEventIn)
    (hacct : fetch_account db.accounts db.syncStates aid = some (acc, last))
    (hsvc : acc.service = "jira")
    (hfetch : attempt (compute_since_ts_jira last force nowEpoch) = SyncAttempt.fetched events)
    (hacct2 : fetch_account db2.accounts db2.syncStates aid2 = some (acc2, last2))
    (hsvc2 : acc2.service = "confluence")
    (hfetch2 : attempt2 (compute_since_ts_confluence last2 nowEpoch2)
      = SyncAttempt.fetched events2) :
    fetch_sync_state
        (run_jira_sync_job db job_id (some aid) force attempt now nowEpoch).syncStates
        ("jira:" ++ aid) = some { cursor := none, last_sync_at := now } ∧
    fetch_sync_state
        (run_confluence_sync_job db2 job_id2 (some aid2) attempt2 now2 nowEpoch2).syncStates
        ("confluence:" ++ aid2) = some { cursor := none, last_sync_at := now2 } ∧
    (run_jira_sync_job { db with syncStates := setCursors f db.syncStates }
        job_id (some aid) force attempt now nowEpoch).jobs
      = (run_jira_sync_job db job_id (some aid) force attempt now nowEpoch).jobs ∧
    (run_jira_sync_job { db with syncStates := setCursors f db.syncStates }
        job_id (some aid) force attempt now nowEpoch).activity
      = (run_jira_sync_job db job_id (some aid) force attempt now nowEpoch).activity ∧
    (run_confluence_sync_job { db2 with syncStates := setCursors f2 db2.syncStates }
        job_id2 (some aid2) attempt2 now2 nowEpoch2).jobs
      = (run_confluence_sync_job db2 job_id2 (some aid2) attempt2 now2 nowEpoch2).jobs ∧
    (run_confluence_sync_job { db2 with syncStates := setCursors f2 db2.syncStates }
        job_id2 (some aid2) attempt2 now2 nowEpoch2).activity
      = (run_confluence_sync_job db2 job_id2 (some aid2) attempt2 now2 nowEpoch2).activity := by
  refine ⟨?_, ?_,
    (run_jira_cursor_blind db job_id (some aid) force attempt now nowEpoch f).1,
    (run_jira_cursor_blind db job_id (some aid) force attempt now nowEpoch f).2,
    (run_confluence_cursor_blind db2 job_id2 (some aid2) attempt2 now2 nowEpoch2 f2).1,
    (run_confluence_cursor_blind db2 job_id2 (some aid2) attempt2 now2 nowEpoch2 f2).2⟩
  · have hss : (run_jira_sync_job db job_id (some aid) force attempt now nowEpoch).syncStates
        = update_sync_state db.syncStates ("jira:" ++ aid) none now := by
      simp [run_jira_sync_job, hacct, hsvc, hfetch]
    rw [hss, fetch_update_sync_state_self]
  · have hss : (run_confluence_sync_job db2 job_id2 (some aid2) attempt2 now2 nowEpoch2).syncStates
        = update_sync_state db2.syncStates ("confluence:" ++ aid2) none now2 := by
      simp [run_confluence_sync_job, hacct2, hsvc2, hfetch2]
    rw [hss, fetch_update_sync_state_self]

/-- Concrete store for the C10 witness: one Jira and one Confluence
account, both never synced. -/
def syncSampleDb : SyncDb :=
  { jobs := { jobs := [], events := [], broadcasts := [] },
    accounts := [("a1", { account_id := "a1", service := "jira" }),
                 ("a2", { account_id := "a2", service := "confluence" })],
    activity := [],
    syncStates := [] }

/-- Witness for C10: a successful first Jira sync stores a null cursor
with `last_sync_at = 5`. -/
theorem C10_null_cursor_witness :
    fetch_sync_state
        (run_jira_sync_job syncSampleDb "j1" (some "a1") false
          (fun _ => SyncAttempt.fetched []) 5 100).syncStates
        ("jira:" ++ "a1") = some { cursor := none, last_sync_at := 5 } :=
  (C10_null_cursor syncSampleDb syncSampleDb "j1" "j2" "a1" "a2" false
    (fun _ => SyncAttempt.fetched []) (fun _ => SyncAttempt.fetched []) 5 100 6 100
    (fun _ => none) (fun _ => none)
    { account_id := "a1", service := "jira" } { account_id := "a2", service := "confluence" }
    none none [] []
    (by decide) rfl rfl (by decide) rfl rfl).1

/-- Looking up an appended table searches the left part first. -/
theorem lookupKey_append {β : Type} (l1 l2 : List (String × β)) (k : String) :
    lookupKey (l1 ++ l2) k
      = match lookupKey l1 k with
        | some v => some v
        | none => lookupKey l2 k := by
  induction l1 with
  | nil => rfl
  | cons hd tl ih =>
    simp only [List.cons_append, lookupKey]
    by_cases h : (hd.1 == k) = true
    · rw [if_pos h, if_pos h]
    · rw [if_neg h, if_neg h]
      exact ih

/-- A key is missing from a table exactly when it is not among the
table's keys. -/
theorem lookupKey_eq_none_iff {β : Type} (l : List (String × β)) (k : String) :
    lookupKey l k = none ↔ k ∉ l.map Prod.fst := by
  induction l with
  | nil => simp [lookupKey]
  | cons hd tl ih =>
    simp only [lookupKey, List.map_cons, List.mem_cons]
    by_cases h : (hd.1 == k) = true
    · have hk : hd.1 = k := by simpa using h
      rw [if_pos h]
      constructor
      · intro hc; cases hc
      · intro hc; exact absurd (Or.inl hk.symm) hc
    · have hk : ¬ hd.1 = k := by simpa using h
      rw [if_neg h, ih]
      constructor
      · intro hnot hmem
        rcases hmem with heq | hmem
        · exact hk heq.symm
        · exact hnot hmem
      · intro hnot hmem
        exact hnot (Or.inr hmem)

/-- With duplicate-free keys, membership determines the lookup. -/
theorem lookupKey_of_mem_nodup {β : Type} (l : List (String × β)) (k : String) (v : β)
    (hmem : (k, v) ∈ l) (hnodup : (l.map Prod.fst).Nodup) :
    lookupKey l k = some v := by
  induction l with
  | nil => cases hmem
  | cons hd tl ih =>
    simp only [List.map_cons, List.nodup_cons] at hnodup
    rcases List.mem_cons.mp hmem with heq | htl
    · subst heq
      simp [lookupKey]
    · have hk : ¬ hd.1 = k := by
        intro hkk
        exact hnodup.1 (hkk ▸ (List.mem_map.mpr ⟨(k, v), htl, rfl⟩))
      simp only [lookupKey]
      rw [if_neg (by simpa using hk)]
      exact ih htl hnodup.2

/-- Filtering can only lose rows: a missing key stays missing. -/
theorem lookupKey_filter_none {β : Type} (l : List (String × β)) (q : String × β → Bool)
    (k : String) (h : lookupKey l k = none) :
    lookupKey (l.filter q) k = none := by
  induction l with
  | nil => rfl
  | cons hd tl ih =>
    simp only [lookupKey, List.filter_cons] at h ⊢
    by_cases hb : (hd.1 == k) = true
    · rw [if_pos hb] at h; cases h
    · rw [if_neg hb] at h
      by_cases hq : q hd
      · rw [if_pos hq]
        simp only [lookupKey]
        rw [if_neg hb]
        exact ih h
      · rw [if_neg hq]
        exact ih h

/-- With duplicate-free keys, filtering out a key's unique row removes
the key from the table. -/
theorem lookupKey_filter_dropped {β : Type} (l : List (String × β)) (q : String × β → Bool)
    (k : String) (v : β) (hmem : (k, v) ∈ l) (hnodup : (l.map Prod.fst).Nodup)
    (hq : q (k, v) = false) :
    lookupKey (l.filter q) k = none := by
  induction l with
  | nil => cases hmem
  | cons hd tl ih =>
    simp only [List.map_cons, List.nodup_cons] at hnodup
    rcases List.mem_cons.mp hmem with heq | htl
    · subst heq
      rw [List.filter_cons, if_neg (by simp [hq])]
      exact lookupKey_filter_none tl q k ((lookupKey_eq_none_iff tl k).mpr hnodup.1)
    · have hk : ¬ hd.1 = k := by
        intro hkk
        exact hnodup.1 (hkk ▸ List.mem_map.mpr ⟨(k, v), htl, rfl⟩)
      rw [List.filter_cons]
      by_cases hqh : q hd
      · rw [if_pos hqh]
        simp only [lookupKey]
        rw [if_neg (by simpa using hk)]
        exact ih htl hnodup.2
      · rw [if_neg hqh]
        exact ih htl hnodup.2

/-- An upsert of one tuple with a different key does not change what a
lookup sees. -/
theorem upsertRow_lookup_other {ε ρ : Type} (key : ε → String) (ins : ε → ρ)
    (upd : ρ → ε → ρ) (tbl : List (String × ρ)) (e : ε) (k : String)
    (hne : key e ≠ k) :
    lookupKey (upsertRow key ins upd tbl e) k = lookupKey tbl k := by
  unfold upsertRow
  by_cases h : (lookupKey tbl (key e)).isSome
  · rw [if_pos h]
    exact lookupKey_updateKey_other tbl (key e) k _ (fun hkk => hne hkk.symm)
  · rw [if_neg h, lookupKey_append]
    cases hl : lookupKey tbl k with
    | some v => rfl
    | none =>
      simp only [lookupKey]
      rw [if_neg (by simpa using hne)]

/-- A batch none of whose tuples carries the key leaves the key's lookup
unchanged. -/
theorem upsertMany_lookup_other {ε ρ : Type} (key : ε → String) (ins : ε → ρ)
    (upd : ρ → ε → ρ) (evs : List ε) :
    ∀ (tbl : List (String × ρ)) (k : String), (∀ e ∈ evs, key e ≠ k) →
    lookupKey (upsertMany key ins upd tbl evs) k = lookupKey tbl k := by
  induction evs with
  | nil => intro tbl k h; rfl
  | cons e rest ih =>
    intro tbl k h
    show lookupKey (upsertMany key ins upd (upsertRow key ins upd tbl e) rest) k = _
    rw [ih _ k (fun e' he' => h e' (List.mem_cons_of_mem e he'))]
    exact upsertRow_lookup_other key ins upd tbl e k (h e (List.mem_cons_self e rest))

/-- Lookup characterization of a whole upsert batch with duplicate-free
tuple keys: a key carried by some tuple ends at that tuple's insert or
update row; any other key is untouched. -/
theorem upsertMany_lookup {ε ρ : Type} (key : ε → String) (ins : ε → ρ)
    (upd : ρ → ε → ρ) (evs : List ε) :
    ∀ (tbl : List (String × ρ)) (k : String), (evs.map key).Nodup →
    lookupKey (upsertMany key ins upd tbl evs) k
      = match evs.find? (fun e => key e == k) with
        | some e => some (match lookupKey tbl k with
                          | some old => upd old e
                          | none => ins e)
        | none => lookupKey tbl k := by
  induction evs with
  | nil => intro tbl k h; rfl
  | cons e rest ih =>
    intro tbl k hnodup
    simp only [List.map_cons, List.nodup_cons] at hnodup
    show lookupKey (upsertMany key ins upd (upsertRow key ins upd tbl e) rest) k = _
    by_cases hk : (key e == k) = true
    · have hkeq : key e = k := by simpa using hk
      have hother : ∀ e' ∈ rest, key e' ≠ k := by
        intro e' he' heq
        exact hnodup.1 (hkeq ▸ heq ▸ List.mem_map.mpr ⟨e', he', rfl⟩)
      rw [upsertMany_lookup_other key ins upd rest _ k hother]
      have hfind : List.find? (fun e => key e == k) (e :: rest) = some e :=
        List.find?_cons_of_pos _ hk
      rw [hfind]
      unfold upsertRow
      by_cases h : (lookupKey tbl (key e)).isSome
      · rw [if_pos h]
        obtain ⟨old, hold⟩ := Option.isSome_iff_exists.mp h
        rw [hkeq] at hold
        rw [hkeq, lookupKey_updateKey_self, hold]
        rfl
      · rw [if_neg h]
        have hnone : lookupKey tbl k = none := by
          rw [← hkeq]
          exact Option.not_isSome_iff_eq_none.mp h
        rw [lookupKey_append, hnone]
        simp [lookupKey, hkeq]
    · have hfind : List.find? (fun e => key e == k) (e :: rest)
          = List.find? (fun e => key e == k) rest :=
        List.find?_cons_of_neg _ hk
      rw [hfind]
      rw [ih _ k hnodup.2]
      have hne : key e ≠ k := by simpa using hk
      rw [upsertRow_lookup_other key ins upd tbl e k hne]

/-- `updateKey` keeps the key column unchanged. -/
theorem keys_updateKey {β : Type} (l : List (String × β)) (k : String) (f : β → β) :
    (updateKey l k f).map Prod.fst = l.map Prod.fst := by
  induction l with
  | nil => rfl
  | cons hd tl ih =>
    simp only [updateKey, List.map_cons] at ih ⊢
    by_cases h : (hd.1 == k) = true
    · rw [if_pos h]
      simp only [List.map_cons]
      rw [ih]
    · rw [if_neg h]
      rw [ih]

/-- Updating a key never deletes another key's row. -/
theorem lookupKey_updateKey_isSome {β : Type} (l : List (String × β)) (k k' : String)
    (f : β → β) :
    (lookupKey (updateKey l k f) k').isSome = (lookupKey l k').isSome := by
  by_cases h : k' = k
  · subst h
    rw [lookupKey_updateKey_self]
    cases lookupKey l k' <;> rfl
  · rw [lookupKey_updateKey_other l k k' f h]

/-- An upsert never deletes a stored key. -/
theorem upsertRow_isSome_mono {ε ρ : Type} (key : ε → String) (ins : ε → ρ)
    (upd : ρ → ε → ρ) (tbl : List (String × ρ)) (e : ε) (k : String)
    (h : (lookupKey tbl k).isSome = true) :
    (lookupKey (upsertRow key ins upd tbl e) k).isSome = true := by
  unfold upsertRow
  by_cases hp : (lookupKey tbl (key e)).isSome
  · rw [if_pos hp, lookupKey_updateKey_isSome]
    exact h
  · rw [if_neg hp, lookupKey_append]
    obtain ⟨v, hv⟩ := Option.isSome_iff_exists.mp h
    rw [hv]
    rfl

/-- A whole upsert batch never deletes a stored key. -/
theorem upsertMany_isSome_mono {ε ρ : Type} (key : ε → String) (ins : ε → ρ)
    (upd : ρ → ε → ρ) (evs : List ε) :
    ∀ (tbl : List (String × ρ)) (k : String), (lookupKey tbl k).isSome = true →
    (lookupKey (upsertMany key ins upd tbl evs) k).isSome = true := by
  induction evs with
  | nil => intro tbl k h; exact h
  | cons e rest ih =>
    intro tbl k h
    exact ih _ k (upsertRow_isSome_mono key ins upd tbl e k h)

/-- Upserting a batch whose keys are all already present changes no key:
the key column (with its order) is preserved. -/
theorem upsertMany_keys_of_present {ε ρ : Type} (key : ε → String) (ins : ε → ρ)
    (upd : ρ → ε → ρ) (evs : List ε) :
    ∀ (tbl : List (String × ρ)), (∀ e ∈ evs, (lookupKey tbl (key e)).isSome = true) →
    (upsertMany key ins upd tbl evs).map Prod.fst = tbl.map Prod.fst := by
  induction evs with
  | nil => intro tbl h; rfl
  | cons e rest ih =>
    intro tbl h
    have h1 : (lookupKey tbl (key e)).isSome = true := h e (List.mem_cons_self e rest)
    have hrow : upsertRow key ins upd tbl e = updateKey tbl (key e) (fun old => upd old e) := by
      unfold upsertRow
      rw [if_pos h1]
    show (upsertMany key ins upd (upsertRow key ins upd tbl e) rest).map Prod.fst = _
    rw [hrow, ih _ ?_, keys_updateKey]
    intro e' he'
    rw [lookupKey_updateKey_isSome]
    exact h e' (List.mem_cons_of_mem e he')

/-- An upsert batch preserves key uniqueness. -/
theorem upsertMany_nodup {ε ρ : Type} (key : ε → String) (ins : ε → ρ)
    (upd : ρ → ε → ρ) (evs : List ε) :
    ∀ (tbl : List (String × ρ)), (tbl.map Prod.fst).Nodup →
    ((upsertMany key ins upd tbl evs).map Prod.fst).Nodup := by
  induction evs with
  | nil => intro tbl h; exact h
  | cons e rest ih =>
    intro tbl h
    show ((upsertMany key ins upd (upsertRow key ins upd tbl e) rest).map Prod.fst).Nodup
    refine ih _ ?_
    unfold upsertRow
    by_cases hp : (lookupKey tbl (key e)).isSome
    · rw [if_pos hp, keys_updateKey]
      exact h
    · rw [if_neg hp]
      have hnotin : key e ∉ tbl.map Prod.fst :=
        (lookupKey_eq_none_iff tbl (key e)).mp (Option.not_isSome_iff_eq_none.mp hp)
      simp only [List.map_append, List.map_cons, List.map_nil]
      rw [List.nodup_append]
      exact ⟨h, List.nodup_singleton _, by simpa using fun hkk => hnotin hkk⟩

/-- One parsed Google Calendar event as produced by
`fetch_calendar_events` and stored by `calendar_repo.upsert_events` for a
fixed (account, calendar) pair.  `status = "cancelled"` marks a remote
tombstone.  The remaining pass-through text columns (description,
location, attendees, ...) behave exactly like `title` — copied verbatim
from the event on insert and on conflict — and are elided. -/
structure CalEvent where
  event_id : String
  title : Option String
  start_ts : Option Int
  end_ts : Option Int
  status : Option String
  created_at : Option String
  updated_at : Option String
deriving DecidableEq, Repr

/-- `db/calendar_repo.py::upsert_events` for one (account, calendar):
insert or fully overwrite each row keyed by `event_id`.  Unlike the
activity upsert, every column — `created_at` and `updated_at` included —
comes from the incoming event (`excluded.*` for the full column list), so
the stored row is the event itself. -/
def cal_upsert_events (tbl : List (String × CalEvent)) (events : List CalEvent) :
    List (String × CalEvent) :=
  upsertMany CalEvent.event_id (fun e => e) (fun _ e => e) tbl events

/-- `db/calendar_repo.py::delete_events`: delete rows by explicit id list
(the early return on an empty list is the identity, as is filtering by
an empty list). -/
def cal_delete_events (tbl : List (String × CalEvent)) (ids : List String) :
    List (String × CalEvent) :=
  tbl.filter (fun kv => !(ids.contains kv.1))

/-- `db/calendar_repo.py::delete_events_in_range`: delete every row
overlapping the window (`start_ts < ? and end_ts > ?` against the window
end resp. start; a SQL comparison against a NULL timestamp is not
satisfied, so rows lacking a timestamp survive). -/
def delete_events_in_range (tbl : List (String × CalEvent)) (start_ts end_ts : Int) :
    List (String × CalEvent) :=
  tbl.filter (fun kv =>
    !(match kv.2.start_ts, kv.2.end_ts with
      | some s, some e => decide (s < end_ts) && decide (e > start_ts)
      | _, _ => false))

/-- The outcome of `fetch_calendar_events` for one calendar: the event
batch, the returned sync token, whether the adapter fell back to a
full-window fetch, and — when present — the window bounds `time_min`,
`time_max` as epochs. -/
structure FetchResult where
  events : List CalEvent
  next_sync_token : Option String
  full_sync : Bool
  window : Option (Int × Int)
deriving DecidableEq, Repr

/-- The per-calendar reconciliation step of
`services/calendar.py::_sync_google_calendar` — the body of the
`for calendar in calendars` loop restricted to its effect on this
calendar's `calendar_events` rows (the interleaved job-progress writes
touch only the job store): on a full-window fetch first delete every
stored row overlapping the window, then delete the rows of explicitly
`cancelled` events, then upsert the active events carrying both
timestamps. -/
def sync_one_calendar (tbl : List (String × CalEvent)) (r : FetchResult) :
    List (String × CalEvent) :=
  let tbl1 :=
    match r.full_sync, r.window with
    | true, some (tmin, tmax) => delete_events_in_range tbl tmin tmax
    | _, _ => tbl
  let cancelled_ids :=
    (r.events.filter (fun e => e.status == some "cancelled")).map CalEvent.event_id
  let active := r.events.filter (fun e =>
    e.status != some "cancelled" && e.start_ts.isSome && e.end_ts.isSome)
  cal_upsert_events (cal_delete_events tbl1 cancelled_ids) active

/-- `db/calendar_repo.py::_calendar_connector_key`: the per-calendar
connector key (service, account, sub-resource) in the shared
`sync_state` table. -/
def calendar_connector_key (account_id calendar_id : String) : String :=
  "calendar:" ++ account_id ++ ":" ++ calendar_id

/-- `db/calendar_repo.py::fetch_calendar_sync_state`. -/
def fetch_calendar_sync_state (states : List (String × SyncState))
    (account_id calendar_id : String) : Option SyncState :=
  lookupKey states (calendar_connector_key account_id calendar_id)

/-- `db/calendar_repo.py::update_calendar_sync_state`: the same
`insert ... on conflict(connector) do update` statement as
`atlassian_repo.update_sync_state`, against the per-calendar connector
key, stamping `last_sync_at = utc_now()`. -/
def update_calendar_sync_state (states : List (String × SyncState))
    (account_id calendar_id : String) (cursor : Option String) (now : Nat) :
    List (String × SyncState) :=
  update_sync_state states (calendar_connector_key account_id calendar_id) cursor now

/-- Outcome of one calendar's fetch-and-store inside
`_sync_google_calendar`'s per-calendar loop: `fetch_calendar_events`
returns a result; or it raises; or the event deletes/upserts raise after
the fetch.  In both fault cases the exception propagates to
`run_calendar_sync_job`'s `except`, which only marks the job failed, so
the loop stops where it stands. -/
inductive CalAttempt
  | fetched (r : FetchResult)
  | fetchRaises (msg : String)
  | storeRaises (r : FetchResult) (msg : String)
deriving DecidableEq, Repr

/-- The calendar stores the loop touches: one `calendar_events` table per
calendar id, and the shared `sync_state` rows. -/
structure CalDb where
  eventTables : List (String × List (String × CalEvent))
  syncStates : List (String × SyncState)
deriving DecidableEq, Repr

/-- Replace calendar `cid`'s event rows by its reconciled table. -/
def writeEventTable (tables : List (String × List (String × CalEvent)))
    (cid : String) (r : FetchResult) : List (String × List (String × CalEvent)) :=
  if (lookupKey tables cid).isSome then
    updateKey tables cid (fun tbl => sync_one_calendar tbl r)
  else
    tables ++ [(cid, sync_one_calendar [] r)]

/-- The `for index, calendar in enumerate(calendars, start=1)` loop of
`services/calendar.py::_sync_google_calendar`, restricted to its effect
on the calendar-events tables and the `sync_state` table (the
interleaved job-progress writes touch only the job store): for each
calendar in order, read that calendar's stored cursor
(`fetch_calendar_sync_state`), call the adapter, reconcile the
calendar's rows (`sync_one_calendar`), and only then advance that
calendar's own sync state (`update_calendar_sync_state`); an exception
stops the loop where it stands, leaving the failing calendar's and every
later calendar's sync state untouched, while earlier calendars keep
their already-advanced state.  A storage fault during the event writes
is modelled as the reconciled table followed by the abort — the claims
settled here read only the sync states, which such a fault never
touches.  Returns the final stores and whether the loop ran to
completion. -/
def sync_calendars_loop (account_id : String)
    (attempt : String → Option String → CalAttempt) (now : Nat) :
    List String → CalDb → CalDb × Bool
  | [], db => (db, true)
  | cid :: rest, db =>
    let cursor :=
      (fetch_calendar_sync_state db.syncStates account_id cid).bind SyncState.cursor
    match attempt cid cursor with
    | CalAttempt.fetchRaises _ => (db, false)
    | CalAttempt.storeRaises r _ =>
        ({ eventTables := writeEventTable db.eventTables cid r,
           syncStates := db.syncStates }, false)
    | CalAttempt.fetched r =>
        sync_calendars_loop account_id attempt now rest
          { eventTables := writeEventTable db.eventTables cid r,
            syncStates := update_calendar_sync_state db.syncStates account_id cid
              r.next_sync_token now }

/-- Writing one connector key leaves every other key's sync state
unchanged. -/
theorem fetch_update_sync_state_other (states : List (String × SyncState))
    (k k2 : String) (cursor : Option String) (now : Nat) (hne : k2 ≠ k) :
    lookupKey (update_sync_state states k cursor now) k2 = lookupKey states k2 := by
  unfold update_sync_state
  by_cases h : (lookupKey states k).isSome
  · rw [if_pos h]
    exact lookupKey_updateKey_other states k k2 _ hne
  · rw [if_neg h, lookupKey_append]
    cases hl : lookupKey states k2 with
    | some v => rfl
    | none =>
      simp only [lookupKey]
      rw [if_neg ?hcond]
      case hcond =>
        simp only [beq_iff_eq]
        exact fun hkk => hne hkk.symm

/-- Per-connector-key preservation through the calendar loop: a key none
of whose calendars completes a successful fetch is never written —
neither its cursor nor its `last_sync_at` changes. -/
theorem sync_calendars_loop_preserves (account_id : String)
    (attempt : String → Option String → CalAttempt) (now : Nat)
    (calendars : List String) :
    ∀ (db : CalDb) (K : String),
    (∀ c ∈ calendars, calendar_connector_key account_id c = K →
       ∀ cur r, attempt c cur ≠ CalAttempt.fetched r) →
    lookupKey (sync_calendars_loop account_id attempt now calendars db).1.syncStates K
      = lookupKey db.syncStates K := by
  induction calendars with
  | nil => intro db K h; rfl
  | cons cid rest ih =>
    intro db K h
    simp only [sync_calendars_loop]
    cases hat : attempt cid
        ((fetch_calendar_sync_state db.syncStates account_id cid).bind SyncState.cursor) with
    | fetchRaises m => rfl
    | storeRaises r m => rfl
    | fetched r =>
      rw [ih _ K (fun c hc => h c (List.mem_cons_of_mem cid hc))]
      by_cases hkey : calendar_connector_key account_id cid = K
      · exact absurd hat (h cid (List.mem_cons_self cid rest) hkey _ r)
      · exact fetch_update_sync_state_other db.syncStates _ K r.next_sync_token now
          (fun hk => hkey hk.symm)

/-- C4: for every connector, a sync attempt that fails before reaching
its connector key's cursor-advance step leaves that key's stored
cursor and `last_sync_at` exactly as they were.  For the Atlassian
runs, the whole `sync_state` table is untouched by every failure path
(missing payload, unknown account, wrong service, fetch fault, upsert
fault), and only the completed fetch-and-upsert success path invokes
`update_sync_state`; for the calendar connector — whose keys are
per-calendar sub-resources — any key none of whose calendars completes a
successful fetch keeps its stored state through the loop, even when
other calendars of the same account advanced theirs before the
failure. -/
theorem C4_sync_failure_preserves_state
    (db db2 : SyncDb) (job_id job_id2 : String) (pacct pacct2 : Option String) (force : Bool)
    (attempt attempt2 : Nat → SyncAttempt) (now nowEpoch now2 nowEpoch2 : Nat) :
    ((run_jira_sync_job db job_id pacct force attempt now nowEpoch).syncStates = db.syncStates
      ∨ ∃ account_id account last_sync_at events,
          pacct = some account_id ∧
          fetch_account db.accounts db.syncStates account_id = some (account, last_sync_at) ∧
          account.service = "jira" ∧
          attempt (compute_since_ts_jira last_sync_at force nowEpoch) = SyncAttempt.fetched events ∧
          (run_jira_sync_job db job_id pacct force attempt now nowEpoch).syncStates
            = update_sync_state db.syncStates ("jira:" ++ account_id) none now) ∧
    ((run_confluence_sync_job db2 job_id2 pacct2 attempt2 now2 nowEpoch2).syncStates = db2.syncStates
      ∨ ∃ account_id account last_sync_at events,
          pacct2 = some account_id ∧
          fetch_account db2.accounts db2.syncStates account_id = some (account, last_sync_at) ∧
          account.service = "confluence" ∧
          attempt2 (compute_since_ts_confluence last_sync_at nowEpoch2) = SyncAttempt.fetched events ∧
          (run_confluence_sync_job db2 job_id2 pacct2 attempt2 now2 nowEpoch2).syncStates
            = update_sync_state db2.syncStates ("confluence:" ++ account_id) none now2) ∧
    (∀ (account_id : String) (attempt3 : String → Option String → CalAttempt) (now3 : Nat)
       (calendars : List String) (cdb : CalDb) (K : String),
       (∀ c ∈ calendars, calendar_connector_key account_id c = K →
          ∀ cur r, attempt3 c cur ≠ CalAttempt.fetched r) →
       lookupKey (sync_calendars_loop account_id attempt3 now3 calendars cdb).1.syncStates K
         = lookupKey cdb.syncStates K) := by
  refine ⟨?_, ?_, ?_⟩
  · rcases pacct with - | account_id
    · left; rfl
    · rcases hfa : fetch_account db.accounts db.syncStates account_id with - | ⟨account, last_sync_at⟩
      · left; simp [run_jira_sync_job, hfa]
      · by_cases hsvc : account.service = "jira"
        · rcases hat : attempt (compute_since_ts_jira last_sync_at force nowEpoch)
            with events | m | ⟨events, k, m⟩
          · right
            exact ⟨account_id, account, last_sync_at, events, rfl, hfa, hsvc,
              hat, by simp [run_jira_sync_job, hfa, hsvc, hat]⟩
          · left; simp [run_jira_sync_job, hfa, hsvc, hat]
          · left; simp [run_jira_sync_job, hfa, hsvc, hat]
        · left; simp [run_jira_sync_job, hfa, hsvc]
  · rcases pacct2 with - | account_id
    · left; rfl
    · rcases hfa : fetch_account db2.accounts db2.syncStates account_id with - | ⟨account, last_sync_at⟩
      · left; simp [run_confluence_sync_job, hfa]
      · by_cases hsvc : account.service = "confluence"
        · rcases hat : attempt2 (compute_since_ts_confluence last_sync_at nowEpoch2)
            with events | m | ⟨events, k, m⟩
          · right
            exact ⟨account_id, account, last_sync_at, events, rfl, hfa, hsvc,
              hat, by simp [run_confluence_sync_job, hfa, hsvc, hat]⟩
          · left; simp [run_confluence_sync_job, hfa, hsvc, hat]
          · left; simp [run_confluence_sync_job, hfa, hsvc, hat]
        · left; simp [run_confluence_sync_job, hfa, hsvc]
  · intro account_id attempt3 now3 calendars cdb K h
    exact sync_calendars_loop_preserves account_id attempt3 now3 calendars cdb K h

/-- An empty store for the C4 witness's Atlassian conjuncts. -/
def emptySyncDb : SyncDb :=
  { jobs := { jobs := [], events := [], broadcasts := [] },
    accounts := [], activity := [], syncStates := [] }

/-- Calendar store for the C4 witness: one calendar with a stored cursor
and timestamp. -/
def calC4Db : CalDb :=
  { eventTables := [],
    syncStates := [("calendar:acc:cal1", { cursor := some "tok", last_sync_at := 50 })] }

/-- Witness for C4: a calendar whose fetch raises keeps its stored cursor
and `last_sync_at` through the loop. -/
theorem C4_sync_failure_preserves_state_witness :
    lookupKey (sync_calendars_loop "acc" (fun _ _ => CalAttempt.fetchRaises "rate limited") 7
        ["cal1"] calC4Db).1.syncStates (calendar_connector_key "acc" "cal1")
      = lookupKey calC4Db.syncStates (calendar_connector_key "acc" "cal1") :=
  (C4_sync_failure_preserves_state emptySyncDb emptySyncDb "j1" "j2" none none false
      (fun _ => SyncAttempt.fetchRaises "x") (fun _ => SyncAttempt.fetchRaises "x")
      0 0 0 0).2.2
    "acc" (fun _ _ => CalAttempt.fetchRaises "rate limited") 7 ["cal1"] calC4Db
    (calendar_connector_key "acc" "cal1")
    (by intro c hc hk cur r hcontra; exact CalAttempt.noConfusion hcontra)

/-- C5: connector upserts are idempotent on an unchanged remote record
set.  For the Atlassian `activity_events` upsert (with a duplicate-free
batch, as a record set keyed by external id is): (a) re-running the same
batch changes no row beyond refreshing its `updated_at` stamp to the
second run's write time; (b) the key column, order included, is unchanged
by the second run; (c) key uniqueness is preserved, so no duplicate
records by external id are ever created; (d) each successful run's
`update_sync_state` call advances `last_sync_at` to that run's write
time; and (e) the calendar upsert — which overwrites every column,
bookkeeping stamps included, from the incoming event — is exactly
idempotent. -/
theorem C5_sync_idempotent (tbl : List (String × ARecord)) (evs : List AEventIn)
    (t1 t2 : Nat) (states : List (String × SyncState)) (connector : String)
    (hkeys : (evs.map AEventIn.event_id).Nodup)
    (hnodup : (tbl.map Prod.fst).Nodup) :
    (∀ k : String,
      (lookupKey (upsert_events t2 (upsert_events t1 tbl evs) evs) k).map ARecord.core
        = (lookupKey (upsert_events t1 tbl evs) k).map ARecord.core) ∧
    ((upsert_events t2 (upsert_events t1 tbl evs) evs).map Prod.fst
        = (upsert_events t1 tbl evs).map Prod.fst) ∧
    (((upsert_events t1 tbl evs).map Prod.fst).Nodup) ∧
    (fetch_sync_state (update_sync_state states connector none t2) connector
        = some { cursor := none, last_sync_at := t2 }) ∧
    (∀ (ctbl : List (String × CalEvent)) (cevs : List CalEvent) (k : String),
        (cevs.map CalEvent.event_id).Nodup →
        lookupKey (cal_upsert_events (cal_upsert_events ctbl cevs) cevs) k
          = lookupKey (cal_upsert_events ctbl cevs) k) := by
  refine ⟨?_, ?_, ?_, fetch_update_sync_state_self states connector none t2, ?_⟩
  · intro k
    simp only [upsert_events]
    rw [upsertMany_lookup AEventIn.event_id (fun e => insertRecord e t2)
          (fun old e => conflictUpdate old e t2) evs _ k hkeys]
    rw [upsertMany_lookup AEventIn.event_id (fun e => insertRecord e t1)
          (fun old e => conflictUpdate old e t1) evs tbl k hkeys]
    cases hf : List.find? (fun e => AEventIn.event_id e == k) evs with
    | none => rfl
    | some e =>
      cases hl : lookupKey tbl k with
      | none => rfl
      | some old => rfl
  · simp only [upsert_events]
    refine upsertMany_keys_of_present _ _ _ evs _ ?_
    intro e he
    rw [upsertMany_lookup AEventIn.event_id (fun e => insertRecord e t1)
          (fun old e => conflictUpdate old e t1) evs tbl (AEventIn.event_id e) hkeys]
    have hfind : (List.find? (fun e' => AEventIn.event_id e' == AEventIn.event_id e) evs).isSome := by
      rw [List.find?_isSome]
      exact ⟨e, he, by simp⟩
    obtain ⟨e', he'⟩ := Option.isSome_iff_exists.mp hfind
    rw [he']
    cases lookupKey tbl (AEventIn.event_id e) <;> rfl
  · simp only [upsert_events]
    exact upsertMany_nodup _ _ _ evs tbl hnodup
  · intro ctbl cevs k hnd
    simp only [cal_upsert_events]
    rw [upsertMany_lookup CalEvent.event_id (fun e => e) (fun _ e => e) cevs _ k hnd]
    rw [upsertMany_lookup CalEvent.event_id (fun e => e) (fun _ e => e) cevs ctbl k hnd]
    cases hf : List.find? (fun e => CalEvent.event_id e == k) cevs with
    | none => rfl
    | some e =>
      cases hl : lookupKey ctbl k with
      | none => rfl
      | some old => rfl

/-- Concrete incoming activity event for the C5 witness. -/
def sampleAEvent : AEventIn :=
  { event_id := "e1", source := "jira", account_id := "a1",
    event_type := "issue_updated", title := "T", description := none,
    url := none, actor := none, event_time := "2026-01-01T00:00:00Z",
    event_ts := 100, raw_json := none }

/-- Witness for C5: upserting one event twice leaves the stored row
unchanged up to its `updated_at` stamp. -/
theorem C5_sync_idempotent_witness :
    (lookupKey (upsert_events 2 (upsert_events 1 [] [sampleAEvent]) [sampleAEvent]) "e1").map
        ARecord.core
      = (lookupKey (upsert_events 1 [] [sampleAEvent]) "e1").map ARecord.core :=
  (C5_sync_idempotent [] [sampleAEvent] 1 2 [] ("jira:" ++ "a1")
    (by decide) (by decide)).1 "e1"

/-- The literal reading of claim C6 instantiated at the Jira connector:
after a successful sync whose fetch was a full-window fetch (no stored
`last_sync_at`, so `_compute_since_ts` used the fixed 7-day lookback
window), every previously-stored activity row lying inside the window
whose id is absent from the fetched result set has been deleted. -/
def windowReconciliationJiraClaim : Prop :=
  ∀ (db : SyncDb) (job_id aid : String) (attempt : Nat → SyncAttempt)
    (now nowEpoch : Nat) (events : List AEventIn) (acc : AtlAccount)
    (k : String) (r : ARecord),
    fetch_account db.accounts db.syncStates aid = some (acc, none) →
    acc.service = "jira" →
    attempt (compute_since_ts_jira none false nowEpoch) = SyncAttempt.fetched events →
    (k, r) ∈ db.activity →
    r.event_ts ≥ ((nowEpoch - DEFAULT_LOOKBACK_DAYS * 86400 : Nat) : Int) →
    (∀ e ∈ events, e.event_id ≠ k) →
    lookupKey (run_jira_sync_job db job_id (some aid) false attempt now nowEpoch).activity k
      = none

/-- A stale activity row lying inside the lookback window. -/
def staleRecord : ARecord :=
  { source := "jira", account_id := "a1", event_type := "issue_updated",
    title := "Old", description := none, url := none, actor := none,
    event_time := "2026-01-01T00:00:00Z", event_ts := 100000,
    created_at := 1, updated_at := 1, raw_json := none }

/-- Store for the C6 counterexample: a Jira account that has never synced
and one stale stored activity row inside the lookback window. -/
def staleDb : SyncDb :=
  { jobs := { jobs := [], events := [], broadcasts := [] },
    accounts := [("a1", { account_id := "a1", service := "jira" })],
    activity := [("stale", staleRecord)],
    syncStates := [] }

/-- C6 — counterexample: a successful full-window Jira sync whose result
set is empty leaves the stale in-window row in place — `run_jira_sync_job`
only upserts and never deletes, so the claimed window-scoped
reconciliation does not happen for this connector kind. -/
theorem C6_counterexample : ¬ windowReconciliationJiraClaim := by
  intro h
  have hc := h staleDb "j1" "a1" (fun _ => SyncAttempt.fetched []) 5 700000 []
    { account_id := "a1", service := "jira" } "stale" staleRecord
    (by decide) rfl rfl (by decide) (by decide)
    (by intro e he; exact absurd he (List.not_mem_nil e))
  exact absurd hc (by decide)

/-- C6 (amended): window-scoped reconciliation exists only in the Google
Calendar connector: there, a full-window fetch first deletes every stored
row overlapping the window, so a previously-stored event inside the
window whose id is absent from the current result set is gone after the
step; the Jira and Confluence syncs, by contrast, never delete any stored
activity row — every stored id survives a sync run of either kind
(`C6_counterexample` shows a surviving stale row). -/
theorem C6_window_reconciliation_amended
    (tbl : List (String × CalEvent)) (r : FetchResult) (tmin tmax : Int)
    (k : String) (row : CalEvent) (s e : Int)
    (hnodup : (tbl.map Prod.fst).Nodup)
    (hmem : (k, row) ∈ tbl)
    (hs : row.start_ts = some s) (he : row.end_ts = some e)
    (hs2 : s < tmax) (he2 : e > tmin)
    (hfull : r.full_sync = true) (hwin : r.window = some (tmin, tmax))
    (habsent : ∀ ev ∈ r.events, ev.event_id ≠ k) :
    lookupKey (sync_one_calendar tbl r) k = none ∧
    (∀ (db : SyncDb) (job_id : String) (pacct : Option String) (force : Bool)
       (attempt : Nat → SyncAttempt) (now nowEpoch : Nat) (k2 : String),
       (lookupKey db.activity k2).isSome = true →
       (lookupKey (run_jira_sync_job db job_id pacct force attempt now nowEpoch).activity
         k2).isSome = true) ∧
    (∀ (db : SyncDb) (job_id : String) (pacct : Option String)
       (attempt : Nat → SyncAttempt) (now nowEpoch : Nat) (k2 : String),
       (lookupKey db.activity k2).isSome = true →
       (lookupKey (run_confluence_sync_job db job_id pacct attempt now nowEpoch).activity
         k2).isSome = true) := by
  refine ⟨?_, ?_, ?_⟩
  · have h1 : lookupKey (delete_events_in_range tbl tmin tmax) k = none := by
      unfold delete_events_in_range
      refine lookupKey_filter_dropped tbl _ k row hmem hnodup ?_
      simp [hs, he, hs2, he2]
    simp only [sync_one_calendar, hfull, hwin, cal_upsert_events]
    rw [upsertMany_lookup_other CalEvent.event_id (fun e => e) (fun _ e => e) _ _ k ?_]
    · unfold cal_delete_events
      exact lookupKey_filter_none _ _ _ h1
    · intro ev hev
      exact habsent ev (List.mem_filter.mp hev).1
  · intro db job_id pacct force attempt now nowEpoch k2 hk2
    rcases pacct with - | aid
    · exact hk2
    · rcases hfa : fetch_account db.accounts db.syncStates aid with - | ⟨account, last⟩
      · simpa [run_jira_sync_job, hfa] using hk2
      · by_cases hsvc : account.service = "jira"
        · rcases hat : attempt (compute_since_ts_jira last force nowEpoch)
            with evs | m | ⟨evs, kk, m⟩
          · have hact : (run_jira_sync_job db job_id (some aid) force attempt now
                nowEpoch).activity = upsert_events now db.activity evs := by
              simp [run_jira_sync_job, hfa, hsvc, hat]
            rw [hact]
            simp only [upsert_events]
            exact upsertMany_isSome_mono _ _ _ evs db.activity k2 hk2
          · simpa [run_jira_sync_job, hfa, hsvc, hat] using hk2
          · have hact : (run_jira_sync_job db job_id (some aid) force attempt now
                nowEpoch).activity = upsert_events now db.activity (evs.take kk) := by
              simp [run_jira_sync_job, hfa, hsvc, hat]
            rw [hact]
            simp only [upsert_events]
            exact upsertMany_isSome_mono _ _ _ (evs.take kk) db.activity k2 hk2
        · simpa [run_jira_sync_job, hfa, hsvc] using hk2
  · intro db job_id pacct attempt now nowEpoch k2 hk2
    rcases pacct with - | aid
    · exact hk2
    · rcases hfa : fetch_account db.accounts db.syncStates aid with - | ⟨account, last⟩
      · simpa [run_confluence_sync_job, hfa] using hk2
      · by_cases hsvc : account.service = "confluence"
        · rcases hat : attempt (compute_since_ts_confluence last nowEpoch)
            with evs | m | ⟨evs, kk, m⟩
          · have hact : (run_confluence_sync_job db job_id (some aid) attempt now
                nowEpoch).activity = upsert_events now db.activity evs := by
              simp [run_confluence_sync_job, hfa, hsvc, hat]
            rw [hact]
            simp only [upsert_events]
            exact upsertMany_isSome_mono _ _ _ evs db.activity k2 hk2
          · simpa [run_confluence_sync_job, hfa, hsvc, hat] using hk2
          · have hact : (run_confluence_sync_job db job_id (some aid) attempt now
                nowEpoch).activity = upsert_events now db.activity (evs.take kk) := by
              simp [run_confluence_sync_job, hfa, hsvc, hat]
            rw [hact]
            simp only [upsert_events]
            exact upsertMany_isSome_mono _ _ _ (evs.take kk) db.activity k2 hk2
        · simpa [run_confluence_sync_job, hfa, hsvc] using hk2

/-- Stored calendar table for the C6 witness: one event overlapping the
window. -/
def calSampleTbl : List (String × CalEvent) :=
  [("ev1", { event_id := "ev1", title := some "gone upstream",
             start_ts := some 10, end_ts := some 20, status := none,
             created_at := none, updated_at := none })]

/-- Full-window fetch result for the C6 witness: an empty result set over
the window 0..100. -/
def calSampleFetch : FetchResult :=
  { events := [], next_sync_token := none, full_sync := true, window := some (0, 100) }

/-- Witness for the amended C6 theorem: the in-window event absent from
the full-window result set is deleted by the calendar step. -/
theorem C6_window_reconciliation_amended_witness :
    lookupKey (sync_one_calendar calSampleTbl calSampleFetch) "ev1" = none :=
  (C6_window_reconciliation_amended calSampleTbl calSampleFetch 0 100 "ev1"
    { event_id := "ev1", title := some "gone upstream", start_ts := some 10,
      end_ts := some 20, status := none, created_at := none, updated_at := none }
    10 20 (by decide) (by decide) rfl rfl (by decide) (by decide) rfl rfl
    (by intro ev hev; exact absurd hev (List.not_mem_nil ev))).1

end Enttok
